import Mathlib

/-
Verification of the convenient-effects core (src/scripts/effect-interface.js).

The file shallowly embeds the two classes of the source file:
* `EffectInterface` (issuer side): name classification (`isStatusEffect`),
  catalog lookup (`findEffectByName`), and the issuer-side `addEffect` /
  `addEffectWith` operations that resolve an effect and relay a command to
  the privileged peer.
* `EffectHandler` (privileged side): `toggleEffect`, `addEffect`,
  `removeEffect`, `hasEffectApplied`.

External collaborators (the platform's actor/effect store, the status-effect
factory, settings, dialogs) are modelled as explicit data (`Env`, `World`).
JavaScript exceptions are modelled with `Except JsError`; `undefined` with
`Option`.  All functions are computable so that concrete scenarios evaluate
by `rfl` / `decide`.
-/

set_option autoImplicit false

namespace DFreds

/-- A JavaScript runtime failure (`TypeError` on a property access of
`undefined`/`null`, or exhaustion of the recursion-depth fuel used to model
the sub-effect recursion). -/
inductive JsError where
  | typeError
  | noFuel
deriving DecidableEq, Repr

/-- The record shape of an active-effect object / active-effect data, as the
source reads and writes it.  The parameter `σ` stands for the type of the
sub-effect list (`flags[MODULE_ID][SUB_EFFECTS]`), so that the recursive
`EffectObj` below can be formed.  Field mapping to the source:
* `_id`            — the document id (`effect._id`, `effect.id`); `none`
                     models a platform-generated id that the module never
                     mentions by name, or data that has no id yet;
* `name`           — `effect.name`;
* `origin`         — `effect.origin`;
* `convenientFlag` — `flags[MODULE_ID][IS_CONVENIENT]`;
* `overlayFlag`    — `flags.core.overlay`;
* `isDynamic`      — `flags[MODULE_ID][IS_DYNAMIC]`;
* `nestedNames`    — `flags[MODULE_ID][NESTED_EFFECTS]`;
* `subEffects`     — `flags[MODULE_ID][SUB_EFFECTS]`;
* `changes`        — `effect.changes` (kept abstract as strings);
* `statuses`       — `effect.statuses` (a set, modelled as a duplicate-free
                     list);
* `exhaustionLevelFlag` / `originalExhaustionFlag`
                   — `flags.dnd5e.exhaustionLevel` / `.originalExhaustion`;
* `applied`        — whether the document currently counts in
                     `actor.appliedEffects` (created documents do). -/
structure EffectShape (σ : Type) where
  _id : Option String := none
  name : String := ""
  origin : Option String := none
  convenientFlag : Bool := false
  overlayFlag : Option Bool := none
  isDynamic : Bool := false
  nestedNames : List String := []
  subEffects : σ
  changes : List String := []
  statuses : List String := []
  exhaustionLevelFlag : Option Int := none
  originalExhaustionFlag : Option Int := none
  applied : Bool := false
deriving Repr

/-- An active-effect object (document or plain data).  Its sub-effect list
holds further effect data of the same shape. -/
inductive EffectObj : Type where
  | mk : EffectShape (List EffectObj) → EffectObj
deriving Repr

/-- The underlying record of an `EffectObj`. -/
def EffectObj.shape : EffectObj → EffectShape (List EffectObj)
  | .mk s => s

def EffectObj.name (e : EffectObj) : String := e.shape.name

def EffectObj.origin (e : EffectObj) : Option String := e.shape.origin

def EffectObj.convenientFlag (e : EffectObj) : Bool := e.shape.convenientFlag

def EffectObj.overlayFlag (e : EffectObj) : Option Bool := e.shape.overlayFlag

def EffectObj.isDynamic (e : EffectObj) : Bool := e.shape.isDynamic

def EffectObj.nestedNames (e : EffectObj) : List String := e.shape.nestedNames

def EffectObj.subEffects (e : EffectObj) : List EffectObj := e.shape.subEffects

def EffectObj.changes (e : EffectObj) : List String := e.shape.changes

def EffectObj.statuses (e : EffectObj) : List String := e.shape.statuses

def EffectObj.applied (e : EffectObj) : Bool := e.shape.applied

/-- `effect._id` (also the JS getter `effect.id`). -/
def EffectObj.docId (e : EffectObj) : Option String := e.shape._id

/-- An entry of the platform's status vocabulary `CONFIG.statusEffects`:
a logical `id`, a display `name`, a fixed identity token `_id`, and (for
exhaustion) the maximum level `levels`. -/
structure StatusEntry where
  id : String
  name : String
  _id : String
  levels : Option Nat := none
deriving DecidableEq, Repr

/-- The exhaustion field of a status descriptor, a faithful rendering of the
JS value `false | null | string` produced at
src/scripts/effect-interface.js:94-98:
`notExh` is JS `false` (not the exhaustion status), `noSuffix` is JS `null`
(bare "Exhaustion"), `num s` carries the captured signed-or-unsigned digit
string. -/
inductive ExhField where
  | notExh
  | noSuffix
  | num (s : String)
deriving DecidableEq, Repr

/-- The object returned by `EffectInterface.isStatusEffect`
(src/scripts/effect-interface.js:100): `{ id, staticID, isExhaustion }`.
The privileged-side `EffectHandler.toggleEffect` additionally reads a
property named `_id` from the descriptor it receives (line 477); the
issuer-side constructor never sets that key, so it defaults to `none`
(JS `undefined`). -/
structure StatusDescriptor where
  id : String
  staticID : String
  isExhaustion : ExhField
  _id : Option String := none
deriving DecidableEq, Repr

/-- A token placed on the canvas; only its `hasActiveHUD` property is read by
the source. -/
structure Token where
  hasActiveHUD : Bool := false
deriving DecidableEq, Repr

/-- An actor of the platform's store.  `exhaustion` models
`actor.system.attributes.exhaustion`; `token` models `actor.token?.object`
and `activeTokens` models `actor.getActiveTokens()`. -/
structure Actor where
  name : String := ""
  effects : List EffectObj := []
  exhaustion : Option Nat := none
  token : Option Token := none
  activeTokens : List Token := []
deriving Repr

/-- `actor.appliedEffects`: the currently applied subset of the actor's
effects. -/
def Actor.appliedEffects (a : Actor) : List EffectObj :=
  a.effects.filter (fun e => e.applied)

/-- The shared actor store, keyed by UUID. -/
def World : Type := List (String × Actor)

/-- `FoundryHelpers.getActorByUuid` (external collaborator, spec section 6:
`getByUuid(uuid) -> Actor|null`). -/
def getActorByUuid (w : World) (uuid : String) : Option Actor :=
  (w.find? (fun p => p.1 == uuid)).map (fun p => p.2)

/-- Replace the actor stored under `uuid` by `f` of it. -/
def updateActor (w : World) (uuid : String) (f : Actor → Actor) : World :=
  w.map (fun p => if p.1 == uuid then (p.1, f p.2) else p)

/-- The ambient collaborators of the core, gathered in one record:
settings, the platform status vocabulary, the two effect catalogs, and the
external helpers the source reaches through globals.
* `modifyStatusEffects` — the settings value read at line 89;
* `statusEffects`       — `CONFIG.statusEffects`;
* `customEffects`       — modelled from the spec: the user-authored catalog
  returned by `CustomEffectsHandler.getCustomEffects` (that file is not under
  src/); the spec (section 3) describes it as a list of effect definitions
  looked up by exact name;
* `builtinEffects`      — `game.dfreds.effects.all`;
* `nestedSelection`     — the outcome of the nested-effect selection dialog
  (`_getNestedEffectSelection`): the chosen definition, or `none` when the
  user closes the dialog;
* `addDynamic`          — modelled from the spec: the dynamic-effect
  expansion collaborator `DynamicEffectsAdder.addDynamicEffects` (file not
  under src/); the spec (section 4.2) runs a dynamic definition through it
  before creation, so it is modelled as recomputing the change list from the
  effect and the actor;
* `getId`               — modelled from the spec: `EffectHelpers.getId`
  (file not under src/), "the just-created parent effect's derived
  identifier", a function of the effect's name (spec section 4.2). -/
structure Env where
  modifyStatusEffects : String
  statusEffects : List StatusEntry
  customEffects : List EffectObj
  builtinEffects : List EffectObj
  nestedSelection : EffectObj → Option EffectObj
  addDynamic : EffectObj → Actor → List String
  getId : String → String

/-- A command relayed to the privileged peer through
`socket.executeAsGM` from the issuer-side `addEffect`. -/
inductive Command where
  | add (effect : EffectObj) (uuid : String) (origin : Option String)
      (overlay : Option Bool) (desc : Option StatusDescriptor)
  | remove (effectID : Option String) (uuid : String) (origin : Option String)
deriving Repr

/-- The observable outcome of an issuer-side operation: the world after the
relayed commands were executed on the privileged peer, the user
notifications issued, and the relayed commands in order. -/
structure IfaceOut where
  world : World
  notifs : List String
  cmds : List Command

/-! ### The status-name grammar (src/scripts/effect-interface.js:90-91)

The source matches the effect name against the regular expression
`^(\w+)(?:\s*([+-]?\d+))?$` (no flags, so `\w` is `[A-Za-z0-9_]`).  Because
`\w+` is greedy and digits are word characters, a trailing number is only
split off when it is separated from the word token by whitespace or carries
an explicit sign; and shortening the `\w+` match can never rescue a failed
maximal match (a shorter prefix leaves a word character in front of the
suffix group, which the group cannot consume unless the whole remainder is
digits — in which case the maximal match already succeeded).  The model
below therefore takes the maximal word prefix and requires the remainder to
be optional whitespace followed by an optionally signed digit string. -/

/-- JS `\w` (no unicode flag): ASCII letters, digits and underscore. -/
def isWordChar (c : Char) : Bool := c.isAlphanum || c == '_'

/-- JS `\s` (restricted to the whitespace the platform's names use). -/
def isSpaceChar (c : Char) : Bool := c.isWhitespace

/-- Match the non-word remainder against `\s*([+-]?\d+)$`, returning the
captured group. -/
def parseNumSuffix (cs : List Char) : Option String :=
  match cs.dropWhile isSpaceChar with
  | [] => none
  | c :: tl =>
    if c == '+' || c == '-' then
      if !tl.isEmpty && tl.all Char.isDigit then some (String.mk (c :: tl)) else none
    else
      if (c :: tl).all Char.isDigit then some (String.mk (c :: tl)) else none

/-- `effectName.match(/^(\w+)(?:\s*([+-]?\d+))?$/)`: the two capture groups,
or `none` when the name does not match. -/
def matchStatusRegex (s : String) : Option (String × Option String) :=
  let cs := s.toList
  let w := cs.takeWhile isWordChar
  let rest := cs.dropWhile isWordChar
  if w.isEmpty then none
  else if rest.isEmpty then some (String.mk w, none)
  else
    match parseNumSuffix rest with
    | none => none
    | some suf => some (String.mk w, some suf)

/-! ### Numeric helpers for the exhaustion arithmetic -/

/-- Decimal value of a digit string (the behaviour of JS `Number` on the
digit part of a captured suffix; only ever applied to all-digit strings). -/
def digitsToNat (cs : List Char) : Nat :=
  cs.foldl (fun a c => a * 10 + (c.toNat - 48)) 0

/-- JS `Number(s)` for the captured suffix strings, which always have the
shape `[+-]?\d+`. -/
def jsNumber (s : String) : Int :=
  match s.toList with
  | '+' :: tl => (digitsToNat tl : Int)
  | '-' :: tl => -(digitsToNat tl : Int)
  | cs => (digitsToNat cs : Int)

/-- `['+', '-'].some((sign) => s.includes(sign))` (line 253). -/
def includesSign (s : String) : Bool :=
  s.toList.contains '+' || s.toList.contains '-'

/-- Foundry's `Math.clamped(x, lo, hi)`. -/
def clamped (x lo hi : Int) : Int := min (max x lo) hi

/-- The exhaustion-target computation of the issuer-side `addEffect`
(src/scripts/effect-interface.js:250-255), as a function of the current
level, the captured suffix (`isStatusEffect.isExhaustion`, `none` for JS
`null`) and the platform constant `levels`:
`!target` selects the bare-increment branch (JS `null` and the empty string
are falsy; a captured suffix is never empty), an explicit sign selects the
relative branch, and otherwise the absolute branch applies. -/
def resolveExhaustionTarget (current : Nat) (target : Option String)
    (maxLevel : Nat) : Int :=
  match target with
  | none => min ((current : Int) + 1) (maxLevel : Int)
  | some s =>
    if s.isEmpty then min ((current : Int) + 1) (maxLevel : Int)
    else if includesSign s then clamped ((current : Int) + jsNumber s) 0 (maxLevel : Int)
    else clamped (jsNumber s) 0 (maxLevel : Int)

/-! ### External collaborators modelled from the spec -/

/-- Modelled from the spec: `EffectHelpers.isConvenient`
(src file scripts/effects/effect-helpers.js is not under src/).  Spec
section 3 and the glossary: a convenient effect is identifiable by the
"is-convenient" marker flag, which this helper reads. -/
def isConvenient (e : EffectObj) : Bool := e.convenientFlag

/-- Modelled from the spec: `EffectHelpers.createActiveEffect`
(src file scripts/effects/effect-helpers.js is not under src/).  The
issuer-side `addEffectWith` builds a definition from
`{ ...effectData, origin }`, so the supplied origin overwrites the data's
origin (also when it is `undefined`); per the spec (section 3 invariant and
glossary) every definition this core creates carries the is-convenient
marker flag.  The result is unsaved data, so it has no document id. -/
def createActiveEffect (ed : EffectObj) (origin : Option String) : EffectObj :=
  .mk { ed.shape with origin := origin, convenientFlag := true, _id := none }

/-- The platform's status-effect factory
`ActiveEffect.implementation.fromStatusEffect` (external collaborator, spec
section 6): a fresh unsaved instance pre-populated from the platform's
built-in status catalog entry matching the id — it carries the entry's fixed
identity token and name and the status id, and no flags of this module.
`none` when the id is not registered (the JS promise would reject). -/
def fromStatusEffect (env : Env) (statusId : String) : Option EffectObj :=
  (env.statusEffects.find? (fun s => s.id == statusId)).map (fun entry =>
    .mk { _id := some entry._id
          name := entry.name
          subEffects := []
          statuses := [statusId] })

/-- `effect.updateSource(effectData)` in the status branch of
`addEffectWith` (line 328): the data's fields overwrite the factory
instance's; the data carries none of `_id`, `statuses` or an applied state,
which therefore survive from the factory instance. -/
def updateSourceData (base ed : EffectObj) : EffectObj :=
  .mk { ed.shape with
        _id := base.shape._id
        statuses := base.shape.statuses
        applied := base.shape.applied }

/-- The exhaustion entry's fixed identity token:
`CONFIG.statusEffects.find((effect) => effect.id == 'exhaustion')._id`
(line 96).  The JS dereference throws when the platform has no exhaustion
entry; the platform always registers one, and the theorems below only use
vocabularies that do. -/
def exhaustionId (env : Env) : Option String :=
  (env.statusEffects.find? (fun e => e.id == "exhaustion")).map (fun e => e._id)

/-- `CONFIG.statusEffects.find(e => e.id == 'exhaustion').levels`
(line 248), the platform's maximum exhaustion level. -/
def exhaustionLevels (env : Env) : Nat :=
  ((env.statusEffects.find? (fun e => e.id == "exhaustion")).bind
    (fun e => e.levels)).getD 0

/-- `CONFIG.statusEffects.find(e => e.id == 'exhaustion').name` (line 263). -/
def exhaustionStatusName (env : Env) : String :=
  ((env.statusEffects.find? (fun e => e.id == "exhaustion")).map
    (fun e => e.name)).getD ""

/-! ### Issuer-side resolution (`EffectInterface`) -/

/-- `EffectInterface.findEffectByName` (lines 50-55): the custom catalog is
searched first, then the built-in catalog, both by exact name. -/
def findEffectByName (env : Env) (effectName : String) : Option EffectObj :=
  match env.customEffects.find? (fun e => e.name == effectName) with
  | some e => some e
  | none => env.builtinEffects.find? (fun e => e.name == effectName)

/-- `EffectInterface.isStatusEffect` (lines 88-102).  Returns `none` for the
JS `false`.  When the regex does not match, the destructuring of `[]` leaves
both captures `undefined` and the vocabulary search by `name ==
stringEffectName` fails, giving `false`; this is folded into the `none`
branch of the match.  The exhaustion test compares the found entry's token
with the vocabulary's exhaustion token (the JS code dereferences the
exhaustion entry directly and would throw if the platform had none). -/
def isStatusEffect (env : Env) (effectName : String) : Option StatusDescriptor :=
  if env.modifyStatusEffects != "none" then none
  else
    match matchStatusRegex effectName with
    | none => none
    | some (base, suffix) =>
      match env.statusEffects.find? (fun e => e.name == base) with
      | none => none
      | some entry =>
        let exh : ExhField :=
          if some entry._id == exhaustionId env then
            match suffix with
            | none => ExhField.noSuffix
            | some s => ExhField.num s
          else ExhField.notExh
        some { id := entry.id, staticID := entry._id, isExhaustion := exh }

/-- `EffectInterface.hasNestedEffects` (lines 378-383). -/
def hasNestedEffects (e : EffectObj) : Bool :=
  !e.nestedNames.isEmpty

/-! ### Privileged-side (`EffectHandler`) non-recursive operations -/

/-- `EffectHandler.hasEffectApplied` (lines 522-529): true when some applied
effect of the actor is convenient and bears the name; JS yields `undefined`
(falsy) when the actor does not resolve. -/
def hasEffectApplied (w : World) (effectName uuid : String) : Bool :=
  match getActorByUuid w uuid with
  | none => false
  | some actor =>
    actor.appliedEffects.any (fun e => isConvenient e && e.name == effectName)

/-- The identifier test of `EffectHandler.removeEffect` (lines 550, 557):
`[activeEffect?._id, activeEffect?.name].some((eID) => eID === effectID)`.
With `effectID` undefined the strict comparison is false for every effect
(document ids and names are strings).  A document whose id the module never
names (modelled `none`) compares unequal to every probe string. -/
def matchesId (e : EffectObj) (effectID : Option String) : Bool :=
  match effectID with
  | none => false
  | some s => e.docId == some s || e.name == s

/-- `EffectHandler.removeEffect` (lines 541-565).  The parameter is
destructured as `{ effectID, uuid, origin }`.  `actor.appliedEffects` throws
when the actor does not resolve.  `if (origin)` tests JS truthiness, so an
empty-string origin falls into the unfiltered branch.  The first matching
applied effect is deleted; when none matches the call returns with no
mutation. -/
def removeEffectHandler (w : World) (effectID : Option String) (uuid : String)
    (origin : Option String) : Except JsError World :=
  match getActorByUuid w uuid with
  | none => .error .typeError
  | some actor =>
    let originTruthy : Bool := match origin with
      | some o => !o.isEmpty
      | none => false
    let pred : EffectObj → Bool :=
      if originTruthy then
        fun e => isConvenient e && matchesId e effectID && e.origin == origin
      else
        fun e => isConvenient e && matchesId e effectID
    match actor.appliedEffects.find? pred with
    | none => .ok w
    | some _ =>
      .ok (updateActor w uuid (fun a =>
        { a with effects := a.effects.eraseP (fun e => e.applied && pred e) }))

/-! ### Small update helpers on effect objects -/

/-- Merge `{ core: { overlay } }` into the effect's flags (line 604-609). -/
def withCoreOverlay (e : EffectObj) (overlay : Option Bool) : EffectObj :=
  .mk { e.shape with overlayFlag := overlay }

/-- Replace the change list (the dynamic-effects collaborator's output). -/
def withChanges (e : EffectObj) (cs : List String) : EffectObj :=
  .mk { e.shape with changes := cs }

/-- Stamp or clear the is-convenient marker flag. -/
def setConvenient (e : EffectObj) (b : Bool) : EffectObj :=
  .mk { e.shape with convenientFlag := b }

/-- The document created by `createEmbeddedDocuments('ActiveEffect', [e])`
without `keepId`: the platform assigns a fresh generated id (modelled
`none`, an id the module never names), and the new document is applied. -/
def freshDoc (e : EffectObj) : EffectObj :=
  .mk { e.shape with _id := none, applied := true }

/-- The document created with `keepId: true`: the data's id survives. -/
def keptDoc (e : EffectObj) : EffectObj :=
  .mk { e.shape with applied := true }

/-- The right operand of the HUD test at line 586:
`actor.getActiveTokens()[0].hasActiveHUD` — a `TypeError` when the actor has
no active token. -/
def hudRight (actor : Actor) : Except JsError Bool :=
  match actor.activeTokens.head? with
  | none => .error .typeError
  | some t => .ok t.hasActiveHUD

/-- The HUD test of `EffectHandler.addEffect` (line 586):
`actor.token?.object.hasActiveHUD || actor.getActiveTokens()[0].hasActiveHUD`.
The optional chain makes the left operand `undefined` (falsy) without a
token; whenever the left operand is falsy the right operand is evaluated and
dereferences the first active token unconditionally. -/
def hudCheck (actor : Actor) : Except JsError Bool :=
  match actor.token with
  | some t => if t.hasActiveHUD then .ok true else hudRight actor
  | none => hudRight actor

/-! ### The privileged add pipeline and its sub-effect recursion

`EffectHandler.addEffect` re-enters the issuer-side
`EffectInterface.addEffectWith` for each sub-effect (line 623), which in
turn relays a privileged `addEffect`.  The relay (`socket.executeAsGM`)
runs the handler on the privileged peer and awaits it, so it is modelled as
a direct call.  The recursion is guarded by a fuel parameter so that all
definitions are structural; `noFuel` never occurs for the finite effect
data these theorems quantify over, given enough fuel. -/

mutual

/-- `EffectHandler.addEffect` (lines 577-630).  The status branch (583-588)
removes a pre-existing applied document bearing the payload's id — the
removal being scoped to convenient effects — evaluates the HUD refresh
condition (which can throw, line 586), and creates the payload with
`keepId: true`.  The non-status branch merges the overlay core flag, runs a
dynamic definition through the expansion collaborator, creates the document
(platform-assigned id), and then applies every sub-effect through
`addEffectWith` with the parent's derived identifier as origin.  The
`origin` parameter itself is never written to the document: the assignment
`effect.origin = origin` is commented out in the source (lines 591-603),
and in the status branch `origin` is only a creation-context option. -/
def handlerAddEffect : Nat → Env → World → EffectObj → String →
    Option String → Option Bool → Option StatusDescriptor →
    Except JsError (World × List String)
  | 0, _, _, _, _, _, _, _ => .error .noFuel
  | fuel+1, env, w, effect, uuid, origin, overlay, isStatus =>
    match getActorByUuid w uuid with
    | none => .error .typeError
    | some actor =>
      match isStatus with
      | some _ => do
        let existing : Option EffectObj := match effect.docId with
          | none => none
          | some t => actor.appliedEffects.find? (fun e => e.docId == some t)
        let w1 ← match existing with
          | some ex => removeEffectHandler w ex.docId uuid none
          | none => pure w
        let _ ← hudCheck actor
        pure (updateActor w1 uuid (fun a =>
          { a with effects := a.effects ++ [keptDoc effect] }), [])
      | none =>
        let effect1 := withCoreOverlay effect overlay
        let effect2 := if effect1.isDynamic then
            withChanges effect1 (env.addDynamic effect1 actor)
          else effect1
        let w1 := updateActor w uuid (fun a =>
          { a with effects := a.effects ++ [freshDoc effect2] })
        processSubEffects fuel env w1 effect2.subEffects uuid
          (env.getId effect2.name)

/-- The sub-effect loop of `EffectHandler.addEffect` (lines 618-629): each
sub-effect's data is fed to `addEffectWith` with the parent's derived
identifier as origin. -/
def processSubEffects : Nat → Env → World → List EffectObj → String →
    String → Except JsError (World × List String)
  | 0, _, _, _, _, _ => .error .noFuel
  | _+1, _, w, [], _, _ => .ok (w, [])
  | fuel+1, env, w, sub :: rest, uuid, origin => do
    let (w1, n1) ← addEffectWithIface fuel env w sub uuid (some origin) none
    let (w2, n2) ← processSubEffects fuel env w1 rest uuid origin
    .ok (w2, n1 ++ n2)

/-- `EffectInterface.addEffectWith` (lines 316-357).  Effect data modelled
by `EffectObj` always has keys, so `foundry.utils.isEmpty(effectData)` is
false and that abort branch is unreachable.  An empty data name is falsy,
skipping status classification.  The status branch builds the instance from
the factory, stamps the is-convenient flag into the data's flags and merges
the data into the instance; the non-status branch builds the definition via
`createActiveEffect` and resolves a nested selection.  Either way the actor
is then resolved (notifying and aborting when unknown) and a privileged
`addEffect` is relayed. -/
def addEffectWithIface : Nat → Env → World → EffectObj → String →
    Option String → Option Bool → Except JsError (World × List String)
  | 0, _, _, _, _, _, _ => .error .noFuel
  | fuel+1, env, w, effectData, uuid, origin, overlay =>
    let effectName := effectData.name
    match (if effectName.isEmpty then none else isStatusEffect env effectName) with
    | some desc =>
      match fromStatusEffect env desc.id with
      | none => .error .typeError
      | some fe =>
        let ed := setConvenient effectData true
        let eff := updateSourceData fe ed
        match getActorByUuid w uuid with
        | none => .ok (w, ["Actor " ++ uuid ++ " could not be found"])
        | some _ => handlerAddEffect fuel env w eff uuid origin overlay (some desc)
    | none =>
      let eff := createActiveEffect effectData origin
      match (if hasNestedEffects eff then env.nestedSelection eff else some eff) with
      | none => .ok (w, [])
      | some eff2 =>
        match getActorByUuid w uuid with
        | none => .ok (w, ["Actor " ++ uuid ++ " could not be found"])
        | some _ => handlerAddEffect fuel env w eff2 uuid origin overlay none

end

/-! ### The privileged toggle (`EffectHandler.toggleEffect`, lines 461-510) -/

/-- JS truthiness of the `active` parameter (`undefined`, `true` or
`false`). -/
def activeTruthy (active : Option Bool) : Bool := active == some true

/-- The creation tail of the status branch (lines 498-507): skipped when
the status is forced inactive (`!active && active !== undefined`, i.e.
`active === false` for the boolean-or-undefined values the parameter
takes); otherwise a fresh instance is built by the status factory, given
the core overlay flag when `overlay` is truthy, and created with
`keepId: true`.  No flag of this module is stamped on it. -/
def toggleStatusCreate (env : Env) (w : World) (uuid statusId : String)
    (overlay active : Option Bool) : Except JsError World :=
  if active == some false then .ok w
  else
    match fromStatusEffect env statusId with
    | none => .error .typeError
    | some fe =>
      let fe1 := if overlay == some true then withCoreOverlay fe (some true) else fe
      .ok (updateActor w uuid (fun a =>
        { a with effects := a.effects ++ [keptDoc fe1] }))

/-- `EffectHandler.toggleEffect` (lines 461-510), iterating over the target
UUIDs.  Non-status branch: when a convenient effect with the name is
applied, `removeEffect` is invoked — but with the argument object
`{ effectName, uuid }`, whose key `effectName` the destructuring
`{ effectID, uuid, origin }` of `removeEffect` does not bind, so the
handler receives `effectID === undefined`; otherwise the effect is
resolved from the catalogs (`.toObject()` throws when the name is
unknown) and added.  Status branch: an unresolvable actor is skipped with
`continue`; with a truthy fixed `_id` on the descriptor the actor's
document with that id is looked up, otherwise all single-status documents
carrying the status id are collected; existing documents are deleted
unless `active` is truthy, and a missing document is created through
`toggleStatusCreate` unless `active` is explicitly false. -/
def toggleEffectHandler (fuel : Nat) (env : Env) :
    World → String → Option Bool → List String → Option StatusDescriptor →
    Option Bool → Except JsError (World × List String)
  | w, _, _, [], _, _ => .ok (w, [])
  | w, effectName, overlay, uuid :: rest, isStatus, active =>
    match isStatus with
    | none =>
      if hasEffectApplied w effectName uuid then do
        let w1 ← removeEffectHandler w none uuid none
        toggleEffectHandler fuel env w1 effectName overlay rest none active
      else
        match findEffectByName env effectName with
        | none => .error .typeError
        | some eff => do
          let (w1, n1) ← handlerAddEffect fuel env w eff uuid none overlay none
          let (w2, n2) ← toggleEffectHandler fuel env w1 effectName overlay rest none active
          .ok (w2, n1 ++ n2)
    | some desc =>
      match getActorByUuid w uuid with
      | none => toggleEffectHandler fuel env w effectName overlay rest isStatus active
      | some actor =>
        let statusId := desc.id
        match desc._id.bind (fun s => if s.isEmpty then none else some s) with
        | some t =>
          match actor.effects.find? (fun e => e.docId == some t) with
          | some _ =>
            if activeTruthy active then
              toggleEffectHandler fuel env w effectName overlay rest isStatus active
            else
              let w1 := updateActor w uuid (fun a =>
                { a with effects := a.effects.eraseP (fun e => e.docId == some t) })
              toggleEffectHandler fuel env w1 effectName overlay rest isStatus active
          | none => do
            let w1 ← toggleStatusCreate env w uuid statusId overlay active
            toggleEffectHandler fuel env w1 effectName overlay rest isStatus active
        | none =>
          let existing := actor.effects.filter
            (fun e => e.statuses.length == 1 && e.statuses.contains statusId)
          if !existing.isEmpty then
            if activeTruthy active then
              toggleEffectHandler fuel env w effectName overlay rest isStatus active
            else
              let ids := existing.filterMap (fun e => e.docId)
              let w1 := updateActor w uuid (fun a =>
                { a with effects := a.effects.filter (fun e =>
                    match e.docId with
                    | some i => !ids.contains i
                    | none => true) })
              toggleEffectHandler fuel env w1 effectName overlay rest isStatus active
          else do
            let w1 ← toggleStatusCreate env w uuid statusId overlay active
            toggleEffectHandler fuel env w1 effectName overlay rest isStatus active

/-! ### The issuer-side `addEffect` (`EffectInterface`, lines 216-304) -/

/-- The argument object of the issuer-side `addEffect`. -/
structure AddEffectArgs where
  effectName : String
  uuid : String
  origin : Option String := none
  overlay : Option Bool := none

/-- An issuer-side `socket.executeAsGM('removeEffect', { effectID, uuid })`
call: the privileged removal runs (and is awaited) on the privileged peer,
and the relayed command is recorded. -/
def executeRemoveAsGM (w : World) (eid : Option String) (uuid : String) :
    Except JsError (World × List Command) := do
  let w1 ← removeEffectHandler w eid uuid none
  pure (w1, [Command.remove eid uuid none])

/-- An issuer-side `socket.executeAsGM('addEffect', { effect, uuid, origin,
overlay, isStatusEffect })` call: the privileged add runs on the privileged
peer; the outcome carries the world, the handler's notifications, and the
commands relayed so far (`cmds1`) extended with this add. -/
def executeAddAsGM (fuel : Nat) (env : Env) (w : World) (effect : EffectObj)
    (uuid : String) (origin : Option String) (overlay : Option Bool)
    (desc : Option StatusDescriptor) (cmds1 : List Command) :
    Except JsError IfaceOut := do
  let (w2, n2) ← handlerAddEffect fuel env w effect uuid origin overlay desc
  .ok { world := w2, notifs := n2
        cmds := cmds1 ++ [Command.add effect uuid origin overlay desc] }

/-- The exhaustion path of the issuer-side `addEffect` (lines 246-281):
derive the new level via `resolveExhaustionTarget`; look up the existing
exhaustion document by the fixed token; when the new level is 0, relay a
removal (with the existing document's id, or `undefined` when there is
none) and stop; otherwise relay a removal of the existing document if any,
build a fresh instance from the factory stamped with the marker flag, the
level flags and the changes of the catalog entry matching the composed
name, rename it to "<Exhaustion-label> <newLevel>", and relay the add. -/
def exhaustionAdd (fuel : Nat) (env : Env) (w : World) (args : AddEffectArgs)
    (desc : StatusDescriptor) (target : Option String) (actor : Actor) :
    Except JsError IfaceOut :=
  let maxL := exhaustionLevels env
  let current := actor.exhaustion.getD 0
  let newLevel := resolveExhaustionTarget current target maxL
  let existing : Option EffectObj :=
    actor.appliedEffects.find? (fun e => e.docId == some desc.staticID)
  if newLevel == 0 then do
    let (w1, cmds) ←
      executeRemoveAsGM w (existing.bind (fun e => e.docId)) args.uuid
    .ok { world := w1, notifs := [], cmds := cmds }
  else
    let nm := exhaustionStatusName env ++ " " ++ toString newLevel
    let chs := ((findEffectByName env nm).map (fun e => e.changes)).getD []
    do
    let (w1, cmds1) ←
      (match existing with
      | some ex => executeRemoveAsGM w ex.docId args.uuid
      | none => pure (w, ([] : List Command)) :
        Except JsError (World × List Command))
    match fromStatusEffect env desc.id with
    | none => .error .typeError
    | some fe =>
      let fe1 : EffectObj := .mk { fe.shape with
        convenientFlag := true
        exhaustionLevelFlag := some newLevel
        originalExhaustionFlag := some (current : Int)
        changes := chs }
      let fe2 : EffectObj := .mk { fe1.shape with name := nm }
      executeAddAsGM fuel env w1 fe2 args.uuid args.origin args.overlay
        (some desc) cmds1

/-- `EffectInterface.addEffect` (lines 216-304).  Line 219 computes
`actor.token?.object ?? actor.getActiveTokens()[0]` before the `if (!actor)`
guard of line 221, so an unresolvable actor UUID raises a `TypeError`
instead of reaching the notification; the guard itself is unreachable.
The non-exhaustion status path (228-245) relays a removal of the applied
document bearing the fixed token, then relays an add of a fresh factory
instance stamped with the marker flag and the catalog changes.  The
catalog path (282-296) notifies and aborts on an unknown name, resolves a
nested selection, and relays the add.  Relayed commands execute on the
privileged peer (`executeAsGM` awaits the handler) and are recorded in
order. -/
def addEffectIface (fuel : Nat) (env : Env) (w : World) (args : AddEffectArgs) :
    Except JsError IfaceOut :=
  match getActorByUuid w args.uuid with
  | none => .error .typeError
  | some actor =>
    match isStatusEffect env args.effectName with
    | some desc =>
      match desc.isExhaustion with
      | ExhField.notExh => do
        let existing : Option EffectObj :=
          actor.appliedEffects.find? (fun e => e.docId == some desc.staticID)
        let (w1, cmds1) ←
          (match existing with
          | some ex => executeRemoveAsGM w ex.docId args.uuid
          | none => pure (w, ([] : List Command)) :
            Except JsError (World × List Command))
        match fromStatusEffect env desc.id with
        | none => .error .typeError
        | some fe =>
          let fe1 := setConvenient fe true
          let chs := ((findEffectByName env args.effectName).map
            (fun e => e.changes)).getD []
          let fe2 := if !chs.isEmpty then withChanges fe1 chs else fe1
          executeAddAsGM fuel env w1 fe2 args.uuid args.origin args.overlay
            (some desc) cmds1
      | ExhField.noSuffix => exhaustionAdd fuel env w args desc none actor
      | ExhField.num s => exhaustionAdd fuel env w args desc (some s) actor
    | none =>
      match findEffectByName env args.effectName with
      | none =>
        .ok { world := w
              notifs := ["Effect " ++ args.effectName ++ " could not be found"]
              cmds := [] }
      | some eff =>
        match (if hasNestedEffects eff then env.nestedSelection eff else some eff) with
        | none => .ok { world := w, notifs := [], cmds := [] }
        | some eff2 =>
          executeAddAsGM fuel env w eff2 args.uuid args.origin args.overlay
            none []

/-! ### Spec-side reference behaviours

These two definitions follow the words of the specification (not the
source); the refinement theorems below compare the source embeddings
against them. -/

/-- Spec section 4.2, `removeEffect` with a supplied origin: "search the
actor's convenient-marked effects for one whose identity token OR name
matches effectIdentifier; additionally require the existing effect's origin
to match; delete the first match; no-op (not an error) if none found." -/
def removeWithOriginSpec (w : World) (uuid : String) (actor : Actor)
    (eid o : String) : World :=
  let pred : EffectObj → Bool := fun e =>
    isConvenient e && (e.docId == some eid || e.name == eid) && e.origin == some o
  match actor.appliedEffects.find? pred with
  | none => w
  | some _ =>
    updateActor w uuid (fun a =>
      { a with effects := a.effects.eraseP (fun e => e.applied && pred e) })

/-- Spec section 4.2, the status toggle with a fixed identity token `t`:
"look up by token; if found and `active` is falsy-or-omitted, delete it and
stop (skip if `active === true`); if absent and `active` is not explicitly
`false`, create it" from the status factory, with the overlay core flag
when requested. -/
def statusToggleSpec (env : Env) (w : World) (uuid t statusId : String)
    (overlay active : Option Bool) (actor : Actor) :
    Except JsError (World × List String) :=
  match actor.effects.find? (fun e => e.docId == some t) with
  | some _ =>
    if active == some true then .ok (w, [])
    else
      .ok (updateActor w uuid (fun a =>
        { a with effects := a.effects.eraseP (fun e => e.docId == some t) }), [])
  | none =>
    if active == some false then .ok (w, [])
    else
      match fromStatusEffect env statusId with
      | none => .error .typeError
      | some fe =>
        let fe1 := if overlay == some true then withCoreOverlay fe (some true) else fe
        .ok (updateActor w uuid (fun a =>
          { a with effects := a.effects ++ [keptDoc fe1] }), [])

/-! ### Sample fixtures used by the concrete parts of the theorems -/

/-- A sample platform status vocabulary: one plain condition and the
exhaustion entry (the platform always registers exhaustion). -/
def sampleStatusEffects : List StatusEntry :=
  [ { id := "blinded", name := "Blinded", _id := "dnd5eblinded0000" },
    { id := "exhaustion", name := "Exhaustion", _id := "dnd5eexhaustion0", levels := some 6 } ]

/-- A sample built-in catalog entry: a convenient-marked plain definition. -/
def blessDef : EffectObj :=
  .mk { name := "Bless", convenientFlag := true, subEffects := [] }

/-- A sample environment with the allow-list setting disabled ("none"). -/
def sampleEnv : Env :=
  { modifyStatusEffects := "none"
    statusEffects := sampleStatusEffects
    customEffects := []
    builtinEffects := [blessDef]
    nestedSelection := fun _ => none
    addDynamic := fun _ _ => []
    getId := fun n => "Convenient Effect: " ++ n }

/-- The sample environment with the allow-list setting enabled. -/
def customEnv : Env :=
  { sampleEnv with modifyStatusEffects := "custom" }

/-- A sample world: one actor at exhaustion level 3 with an active token. -/
def exhaustActorW : World :=
  [("u", { name := "Hero", exhaustion := some 3, activeTokens := [{}] })]

/-- A convenient applied effect with an origin, for the removal fixtures. -/
def shieldEff : EffectObj :=
  .mk { name := "Shield", convenientFlag := true, origin := some "src"
        applied := true, subEffects := [] }

/-- A world whose single actor carries `shieldEff`. -/
def originW : World := [("u", { name := "Hero", effects := [shieldEff] })]

/-- The descriptor the issuer produces for "Blinded" under `sampleEnv`. -/
def blindedDesc : StatusDescriptor :=
  { id := "blinded", staticID := "dnd5eblinded0000"
    isExhaustion := ExhField.notExh }

/-- A "Blinded" descriptor that carries the fixed identity token under the
`_id` key the privileged toggle reads. -/
def blindedTokDesc : StatusDescriptor :=
  { blindedDesc with _id := some "dnd5eblinded0000" }

/-- A world with one actor and no effects, for the toggle round-trip. -/
def toggleW : World := [("u", { name := "Hero" })]

/-- The applied document the first toggle of "Bless" creates. -/
def blessApplied : EffectObj :=
  .mk { name := "Bless", convenientFlag := true, applied := true
        subEffects := [] }

/-- `toggleW` after "Bless" has been toggled on. -/
def toggleOnW : World := [("u", { name := "Hero", effects := [blessApplied] })]

/-- Whether every add command in a relayed command list carries a
convenient-marked effect payload. -/
def addCmdsMarked (cmds : List Command) : Bool :=
  cmds.all (fun c => match c with
    | Command.add e _ _ _ _ => isConvenient e
    | Command.remove _ _ _ => true)

/-- The unmarked instance the privileged toggle's status branch creates for
"Blinded" under `sampleEnv` (the factory output, applied). -/
def blindedUnmarked : EffectObj :=
  .mk { _id := some "dnd5eblinded0000", name := "Blinded", subEffects := []
        statuses := ["blinded"], applied := true }

/-- `toggleW` after the status toggle created the unmarked "Blinded". -/
def toggledBlindW : World :=
  [("u", { name := "Hero", effects := [blindedUnmarked] })]

/-- A foreign (unmarked) applied instance bearing the "Blinded" token. -/
def blindedForeign : EffectObj :=
  .mk { _id := some "dnd5eblinded0000", name := "Blinded", subEffects := []
        statuses := ["blinded"], applied := true }

/-- A world whose actor carries `blindedForeign` and an active token. -/
def dupW : World :=
  [("u", { name := "Hero", effects := [blindedForeign]
           activeTokens := [{}] })]

/-- The convenient-marked "Blinded" payload the issuer-side status add
relays. -/
def blindedPayload : EffectObj :=
  .mk { _id := some "dnd5eblinded0000", name := "Blinded", subEffects := []
        statuses := ["blinded"], convenientFlag := true }

/-- `dupW` after the privileged status add: two instances bear the token. -/
def dupResultW : World :=
  [("u", { name := "Hero", effects := [blindedForeign, keptDoc blindedPayload]
           activeTokens := [{}] })]

/-- Plain effect data named "Blinded" (as `addEffectWith` would receive). -/
def blindedData : EffectObj := .mk { name := "Blinded", subEffects := [] }

/-- What the platform factory returns for the "blinded" status under
`sampleEnv`. -/
def blindedFactory : EffectObj :=
  .mk { _id := some "dnd5eblinded0000", name := "Blinded", subEffects := []
        statuses := ["blinded"] }

/-- A convenient-marked applied instance bearing the "Blinded" token. -/
def blindedMarked : EffectObj :=
  .mk { _id := some "dnd5eblinded0000", name := "Blinded", subEffects := []
        statuses := ["blinded"], convenientFlag := true, applied := true }

/-- A world whose actor carries `blindedMarked` and an active token. -/
def dupMarkedW : World :=
  [("u", { name := "Hero", effects := [blindedMarked]
           activeTokens := [{}] })]

/-- A sub-effect definition for the composite fixture. -/
def compSubA : EffectObj :=
  .mk { name := "AidHP", subEffects := [] }

/-- A second sub-effect definition for the composite fixture. -/
def compSubB : EffectObj :=
  .mk { name := "AidSave", subEffects := [] }

/-- A composite definition with two sub-effects. -/
def compParent : EffectObj :=
  .mk { name := "Aid", convenientFlag := true
        subEffects := [compSubA, compSubB] }

/-! ### Shared lemmas -/

/-- `removeEffect` on the privileged side never throws when the actor
resolves. -/
theorem removeEffectHandler_isOk (w : World) (eid : Option String)
    (u : String) (o : Option String) (a : Actor)
    (ha : getActorByUuid w u = some a) :
    ∃ w1, removeEffectHandler w eid u o = Except.ok w1 := by
  simp only [removeEffectHandler, ha]
  split
  · exact ⟨_, rfl⟩
  · exact ⟨_, rfl⟩

/-- Updating an actor changes exactly what `getActorByUuid` returns for
that UUID. -/
theorem getActorByUuid_updateActor (w : World) (u : String)
    (f : Actor → Actor) :
    getActorByUuid (updateActor w u f) u = (getActorByUuid w u).map f := by
  induction w with
  | nil => rfl
  | cons p rest ih =>
    obtain ⟨k, a⟩ := p
    by_cases hk : k = u
    · subst hk
      simp [getActorByUuid, updateActor, List.find?_cons]
    · have hk' : (k == u) = false := by simpa using hk
      simp only [getActorByUuid, updateActor, List.map_cons, hk',
        Bool.false_eq_true, if_false] at ih ⊢
      rw [List.find?_cons_of_neg _ (by simpa using hk),
        List.find?_cons_of_neg _ (by simpa using hk)]
      exact ih

/-- Erasing by a predicate that holds at most once removes every
satisfying element. -/
theorem countP_eraseP_self {α : Type} (l : List α) (p : α → Bool)
    (h : l.countP p ≤ 1) : (l.eraseP p).countP p = 0 := by
  induction l with
  | nil => rfl
  | cons a tl ih =>
    by_cases hpa : p a = true
    · rw [List.eraseP_cons_of_pos hpa]
      have h' := h
      rw [List.countP_cons, hpa] at h'
      simp only [if_true] at h'
      have : tl.countP p = 0 := by omega
      exact this
    · have hpa' : p a = false := by simpa using hpa
      rw [List.eraseP_cons_of_neg hpa]
      rw [List.countP_cons, hpa']
      have hle : tl.countP p ≤ 1 := by
        have h' := h
        rw [List.countP_cons, hpa'] at h'
        simpa using h'
      simpa using ih hle

/-- The record of a constructed effect object. -/
theorem shape_mk (s : EffectShape (List EffectObj)) :
    (EffectObj.mk s).shape = s := rfl

/-- Binding an `ok` result is application. -/
theorem except_bind_ok {α β : Type} (a : α) (k : α → Except JsError β) :
    (Except.ok a >>= k) = k a := rfl

/-- `pure` in the `Except` monad is `ok`. -/
theorem except_pure_eq {α : Type} (a : α) :
    (pure a : Except JsError α) = Except.ok a := rfl

/-- Binding an error short-circuits. -/
theorem except_bind_error {α β : Type} (e : JsError)
    (k : α → Except JsError β) :
    ((Except.error e : Except JsError α) >>= k) = Except.error e := rfl

/-- Two predicates agreeing on a list erase the same element. -/
theorem eraseP_congr {α : Type} (l : List α) (p q : α → Bool)
    (h : ∀ e ∈ l, p e = q e) : l.eraseP p = l.eraseP q := by
  induction l with
  | nil => rfl
  | cons a tl ih =>
    have ha := h a (by simp)
    by_cases hpa : p a = true
    · rw [List.eraseP_cons_of_pos hpa,
        List.eraseP_cons_of_pos (ha ▸ hpa)]
    · have hqa : ¬ q a = true := by rw [← ha]; exact hpa
      rw [List.eraseP_cons_of_neg hpa, List.eraseP_cons_of_neg hqa]
      exact congrArg (a :: ·) (ih (fun e he => h e (by simp [he])))

/-- Claim C4: the exhaustion target level is `min(current+1, maxLevel)` for
a bare "Exhaustion" (null delta), `clamp(current + signedValue, 0,
maxLevel)` for a delta with an explicit sign, and `clamp(value, 0,
maxLevel)` for an unsigned delta; the examples `(current=2, "+2") = 4`,
`(current=5, null, maxLevel=5) = 5` and `(current=3, "-5") = 0` hold; and
whenever the computed level is 0 the issuer-side `addEffect` relays exactly
one removal command and no add command. -/
theorem C4_exhaustion_target (current maxLevel : Nat) (s : String)
    (hne : s.isEmpty = false) :
    resolveExhaustionTarget current none maxLevel
        = min ((current : Int) + 1) (maxLevel : Int)
    ∧ (includesSign s = true →
        resolveExhaustionTarget current (some s) maxLevel
          = clamped ((current : Int) + jsNumber s) 0 (maxLevel : Int))
    ∧ (includesSign s = false →
        resolveExhaustionTarget current (some s) maxLevel
          = clamped (jsNumber s) 0 (maxLevel : Int))
    ∧ resolveExhaustionTarget 2 (some "+2") 6 = 4
    ∧ resolveExhaustionTarget 5 none 5 = 5
    ∧ resolveExhaustionTarget 3 (some "-5") 6 = 0
    ∧ (∀ (fuel : Nat) (env : Env) (w : World) (args : AddEffectArgs)
        (desc : StatusDescriptor) (actor : Actor),
        getActorByUuid w args.uuid = some actor →
        isStatusEffect env args.effectName = some desc →
        desc.isExhaustion = ExhField.num s →
        resolveExhaustionTarget (actor.exhaustion.getD 0) (some s)
          (exhaustionLevels env) = 0 →
        ∃ eid w1, removeEffectHandler w eid args.uuid none = Except.ok w1 ∧
          addEffectIface fuel env w args =
            Except.ok { world := w1, notifs := []
                        cmds := [Command.remove eid args.uuid none] }) := by
  refine ⟨rfl, ?_, ?_, by decide, by decide, by decide, ?_⟩
  · intro hsign
    simp [resolveExhaustionTarget, hne, hsign]
  · intro hsign
    simp [resolveExhaustionTarget, hne, hsign]
  · intro fuel env w args desc actor ha hdesc hexh hzero
    obtain ⟨w1, hw1⟩ := removeEffectHandler_isOk w
      ((actor.appliedEffects.find? (fun e => e.docId == some desc.staticID)).bind
        (fun e => e.docId)) args.uuid none actor ha
    refine ⟨_, w1, hw1, ?_⟩
    simp only [addEffectIface, ha, hdesc, hexh, exhaustionAdd, hzero]
    simp only [executeRemoveAsGM, hw1, except_bind_ok, except_pure_eq]
    rfl

/-- Claim C4 witness: the theorem applied at concrete inputs — the "-5"
delta at current level 3, and the removal relayed instead of a creation on
the sample world. -/
theorem C4_exhaustion_target_witness :
    ("-5" : String).isEmpty = false ∧
    resolveExhaustionTarget 3 (some "-5") 6 = 0 ∧
    (∃ eid w1, removeEffectHandler exhaustActorW eid "u" none = Except.ok w1 ∧
      addEffectIface 10 sampleEnv exhaustActorW
          { effectName := "Exhaustion -5", uuid := "u" } =
        Except.ok { world := w1, notifs := []
                    cmds := [Command.remove eid "u" none] }) :=
  ⟨by decide, (C4_exhaustion_target 3 6 "-5" (by decide)).2.2.2.2.2.1,
   (C4_exhaustion_target 3 6 "-5" (by decide)).2.2.2.2.2.2 10 sampleEnv
     exhaustActorW { effectName := "Exhaustion -5", uuid := "u" }
     { id := "exhaustion", staticID := "dnd5eexhaustion0"
       isExhaustion := ExhField.num "-5" }
     { name := "Hero", exhaustion := some 3, activeTokens := [{}] }
     rfl rfl rfl rfl⟩

/-- Claim C5: classification returns a descriptor exactly when the
`modifyStatusEffects` setting is "none" and the name parses under the
grammar word-token / optional whitespace / optional signed-or-unsigned
integer into a base name registered in the status vocabulary; the suffix
becomes the exhaustion level or delta, `null` (noSuffix) for a bare
"Exhaustion", and `false` (notExh) for non-exhaustion statuses; any other
setting classifies every name as false.  The concrete conjuncts cover the
boundary cases: no suffix, `+N`, `-N` without whitespace, bare `N` with
whitespace, bare `N` without whitespace (absorbed into the word token by
the greedy `\w+`, leaving an unregistered base), a suffixed
non-exhaustion status, and a non-"none" setting. -/
theorem C5_status_classification (env : Env) (name : String) :
    (env.modifyStatusEffects ≠ "none" → isStatusEffect env name = none)
    ∧ (env.modifyStatusEffects = "none" →
        ((isStatusEffect env name).isSome ↔
          ∃ base suffix, matchStatusRegex name = some (base, suffix) ∧
            (env.statusEffects.find? (fun e => e.name == base)).isSome))
    ∧ (∀ base suffix entry,
        env.modifyStatusEffects = "none" →
        matchStatusRegex name = some (base, suffix) →
        env.statusEffects.find? (fun e => e.name == base) = some entry →
        (some entry._id = exhaustionId env →
          isStatusEffect env name = some
            { id := entry.id, staticID := entry._id
              isExhaustion := match suffix with
                | none => ExhField.noSuffix
                | some s => ExhField.num s })
        ∧ (some entry._id ≠ exhaustionId env →
          isStatusEffect env name = some
            { id := entry.id, staticID := entry._id
              isExhaustion := ExhField.notExh }))
    ∧ isStatusEffect sampleEnv "Exhaustion" = some
        { id := "exhaustion", staticID := "dnd5eexhaustion0"
          isExhaustion := ExhField.noSuffix }
    ∧ isStatusEffect sampleEnv "Exhaustion +2" = some
        { id := "exhaustion", staticID := "dnd5eexhaustion0"
          isExhaustion := ExhField.num "+2" }
    ∧ isStatusEffect sampleEnv "Exhaustion-3" = some
        { id := "exhaustion", staticID := "dnd5eexhaustion0"
          isExhaustion := ExhField.num "-3" }
    ∧ isStatusEffect sampleEnv "Exhaustion 4" = some
        { id := "exhaustion", staticID := "dnd5eexhaustion0"
          isExhaustion := ExhField.num "4" }
    ∧ isStatusEffect sampleEnv "Exhaustion4" = none
    ∧ isStatusEffect sampleEnv "Blinded 2" = some
        { id := "blinded", staticID := "dnd5eblinded0000"
          isExhaustion := ExhField.notExh }
    ∧ isStatusEffect customEnv "Blinded" = none := by
  refine ⟨?_, ?_, ?_, by decide, by decide, by decide, by decide, by decide,
    by decide, by decide⟩
  · intro h
    have hb : (env.modifyStatusEffects != "none") = true := by
      simpa [bne_iff_ne] using h
    simp [isStatusEffect, hb]
  · intro h
    have hb : (env.modifyStatusEffects != "none") = false := by
      simp [h]
    simp only [isStatusEffect, hb, Bool.false_eq_true, if_false]
    cases hm : matchStatusRegex name with
    | none => simp
    | some p =>
      obtain ⟨base, suffix⟩ := p
      cases hf : env.statusEffects.find? (fun e => e.name == base) with
      | none =>
        simp only [hf, Option.isSome_none, Bool.false_eq_true, false_iff]
        rintro ⟨base', suffix', hps, hfs⟩
        obtain ⟨rfl, rfl⟩ : base = base' ∧ suffix = suffix' := by
          simpa using hps
        simp [hf] at hfs
      | some entry =>
        simp only [hf, Option.isSome_some, true_iff]
        exact ⟨base, suffix, rfl, by simp [hf]⟩
  · intro base suffix entry h hm hf
    have hb : (env.modifyStatusEffects != "none") = false := by
      simp [h]
    constructor
    · intro hexh
      simp [isStatusEffect, hb, hm, hf, hexh]
    · intro hexh
      have : (some entry._id == exhaustionId env) = false := by
        simpa [beq_iff_eq] using hexh
      simp [isStatusEffect, hb, hm, hf, this]

/-- Claim C5 witness: the theorem applied at the "custom" setting and at a
registered suffixed name under the "none" setting. -/
theorem C5_status_classification_witness :
    ("custom" : String) ≠ "none" ∧
    isStatusEffect customEnv "Blinded" = none ∧
    (isStatusEffect sampleEnv "Exhaustion +2").isSome :=
  ⟨by decide, (C5_status_classification customEnv "Blinded").1 (by decide),
   by
    have h := ((C5_status_classification sampleEnv "Exhaustion +2").2.1 rfl).2
    exact h ⟨"Exhaustion", some "+2", by decide, by decide⟩⟩

/-- Claim C9: with a supplied (truthy) origin, the privileged `removeEffect`
behaves exactly as the spec describes — no convenient-marked applied effect
matching the identifier (by token or name) with that origin means nothing
is deleted and the world is unchanged (a no-op, not an error); when a match
exists, exactly the first match is deleted. -/
theorem C9_remove_origin_noop (w : World) (uuid eid o : String)
    (actor : Actor) (ha : getActorByUuid w uuid = some actor)
    (ho : o.isEmpty = false) :
    removeEffectHandler w (some eid) uuid (some o) =
      Except.ok (removeWithOriginSpec w uuid actor eid o)
    ∧ (actor.appliedEffects.find? (fun e =>
        isConvenient e && (e.docId == some eid || e.name == eid) &&
          e.origin == some o) = none →
        removeEffectHandler w (some eid) uuid (some o) = Except.ok w) := by
  have h1 : removeEffectHandler w (some eid) uuid (some o) =
      Except.ok (removeWithOriginSpec w uuid actor eid o) := by
    simp only [removeEffectHandler, ha, ho, matchesId, removeWithOriginSpec,
      Bool.not_false, if_true]
    split
    next _ => rfl
    next _ _ => rfl
  refine ⟨h1, fun hf => ?_⟩
  rw [h1]
  simp only [removeWithOriginSpec, matchesId, hf]

/-- Claim C9 witness: on the sample world, removing "Shield" with the
non-matching origin "other" is a no-op. -/
theorem C9_remove_origin_noop_witness :
    getActorByUuid originW "u" = some { name := "Hero", effects := [shieldEff] } ∧
    ("other" : String).isEmpty = false ∧
    removeEffectHandler originW (some "Shield") "u" (some "other") =
      Except.ok originW :=
  ⟨rfl, by decide,
   (C9_remove_origin_noop originW "u" "Shield" "other"
     { name := "Hero", effects := [shieldEff] } rfl (by decide)).2 rfl⟩

/-- Claim C10: in the status branch of the privileged `toggleEffect`, a
target UUID that does not resolve to an actor is skipped silently — the
loop continues with the remaining targets on an unchanged world, with no
error raised and no notification issued for that target (the handler calls
no notification facility at all; its only outputs are the world, the
notifications forwarded from sub-effect processing, and thrown errors, and
the skipped target contributes none of them). -/
theorem C10_status_toggle_skips_unresolved (fuel : Nat) (env : Env)
    (w : World) (effectName : String) (overlay : Option Bool) (u : String)
    (rest : List String) (desc : StatusDescriptor) (active : Option Bool)
    (hu : getActorByUuid w u = none) :
    toggleEffectHandler fuel env w effectName overlay (u :: rest)
        (some desc) active
      = toggleEffectHandler fuel env w effectName overlay rest
        (some desc) active := by
  simp only [toggleEffectHandler, hu]

/-- Claim C10 witness: an unknown UUID in a singleton target list leaves
the world untouched and completes normally. -/
theorem C10_status_toggle_skips_unresolved_witness :
    getActorByUuid originW "ghost" = none ∧
    toggleEffectHandler 10 sampleEnv originW "Blinded" none ["ghost"]
        (some blindedDesc) none = Except.ok (originW, []) :=
  ⟨rfl, by
    rw [C10_status_toggle_skips_unresolved 10 sampleEnv originW "Blinded"
      none "ghost" [] blindedDesc none rfl]
    rfl⟩

/-- Claim C6: for a status-effect descriptor carrying a (truthy) fixed
identity token, the privileged `toggleEffect` behaves on each target
exactly as the spec describes: it looks up the actor's document by the
token; when one is found it deletes it and stops unless `active === true`
(in which case it is left in place); when none is found it creates a fresh
instance from the status factory unless `active` is explicitly `false`. -/
theorem C6_status_toggle_fixed_token (fuel : Nat) (env : Env) (w : World)
    (effectName : String) (overlay active : Option Bool) (u t : String)
    (desc : StatusDescriptor) (actor : Actor)
    (ha : getActorByUuid w u = some actor)
    (hid : desc._id = some t) (ht : t.isEmpty = false) :
    toggleEffectHandler fuel env w effectName overlay [u] (some desc) active
      = statusToggleSpec env w u t desc.id overlay active actor := by
  simp only [toggleEffectHandler, ha, hid, Option.some_bind, ht,
    Bool.false_eq_true, if_false, statusToggleSpec, activeTruthy,
    toggleStatusCreate]
  split
  · split
    · rfl
    · rfl
  · split
    · rfl
    · split
      · rfl
      · rfl

/-- Claim C6 witness: toggling the token-carrying "Blinded" descriptor on
the sample actor follows the spec behaviour (here: the creation case). -/
theorem C6_status_toggle_fixed_token_witness :
    getActorByUuid originW "u" = some { name := "Hero", effects := [shieldEff] } ∧
    blindedTokDesc._id = some "dnd5eblinded0000" ∧
    ("dnd5eblinded0000" : String).isEmpty = false ∧
    toggleEffectHandler 10 sampleEnv originW "Blinded" none ["u"]
        (some blindedTokDesc) none
      = statusToggleSpec sampleEnv originW "u" "dnd5eblinded0000"
          blindedTokDesc.id none none { name := "Hero", effects := [shieldEff] } :=
  ⟨rfl, rfl, by decide,
   C6_status_toggle_fixed_token 10 sampleEnv originW "Blinded" none none "u"
     "dnd5eblinded0000" blindedTokDesc { name := "Hero", effects := [shieldEff] }
     rfl rfl (by decide)⟩

/-- Claim C1 (code bug): toggling a catalog effect twice does NOT return the
actor to the original state.  The first toggle applies "Bless"; the second
finds it applied and invokes `removeEffect` — but passes the identifier
under the key `effectName` while `removeEffect` destructures `{ effectID,
uuid, origin }` (its own doc comment names the parameter `effectName`), so
the handler receives `effectID === undefined`, matches nothing, and deletes
nothing.  After two toggles the effect is still applied although it was
absent initially. -/
theorem C1_toggle_roundtrip_fails :
    hasEffectApplied toggleW "Bless" "u" = false ∧
    toggleEffectHandler 10 sampleEnv toggleW "Bless" none ["u"] none none
      = Except.ok (toggleOnW, []) ∧
    toggleEffectHandler 10 sampleEnv toggleOnW "Bless" none ["u"] none none
      = Except.ok (toggleOnW, []) ∧
    hasEffectApplied toggleOnW "Bless" "u" = true :=
  ⟨rfl, rfl, rfl, rfl⟩

/-- Claim C3 (code bug): the issuer-side `addEffect` with an actor UUID
that resolves to no actor throws a `TypeError` — line 219 computes
`actor.token?.object ?? actor.getActiveTokens()[0]` before the
`if (!actor)` guard of line 221 — instead of reporting through the
notification channel and returning without mutation. -/
theorem C3_add_unknown_actor_throws :
    getActorByUuid originW "nobody" = none ∧
    addEffectIface 10 sampleEnv originW
        { effectName := "Bless", uuid := "nobody" }
      = Except.error JsError.typeError :=
  ⟨rfl, rfl⟩

/-- Claim C2 counterexample: the privileged toggle's status-creation path
creates an applied instance that carries no is-convenient marker — after
toggling "Blinded" onto an actor with no effects, the actor's only applied
effect is unmarked, refuting the claim that every instance created by the
core's operations carries the marker. -/
theorem C2_unmarked_creation :
    toggleEffectHandler 10 sampleEnv toggleW "Blinded" none ["u"]
        (some blindedDesc) none = Except.ok (toggledBlindW, []) ∧
    (getActorByUuid toggledBlindW "u").map (fun a =>
      a.effects.map (fun e => isConvenient e)) = some [false] ∧
    blindedUnmarked.applied = true :=
  ⟨rfl, rfl, rfl⟩

/-- A successful privileged removal keeps the actor resolvable. -/
theorem removeEffectHandler_actor {w : World} {eid : Option String}
    {u : String} {o : Option String} {w1 : World} {a : Actor}
    (ha : getActorByUuid w u = some a)
    (hR : removeEffectHandler w eid u o = Except.ok w1) :
    ∃ a1, getActorByUuid w1 u = some a1 := by
  simp only [removeEffectHandler, ha] at hR
  split at hR
  · injection hR with hR
    subst hR
    exact ⟨a, ha⟩
  · injection hR with hR
    subst hR
    rw [getActorByUuid_updateActor, ha]
    exact ⟨_, rfl⟩

/-- What a successful relayed privileged add contributes to the outcome. -/
theorem executeAddAsGM_cmds {fuel : Nat} {env : Env} {w : World}
    {effect : EffectObj} {uuid : String} {origin : Option String}
    {overlay : Option Bool} {desc : Option StatusDescriptor}
    {cmds1 : List Command} {out : IfaceOut}
    (h : executeAddAsGM fuel env w effect uuid origin overlay desc cmds1
      = Except.ok out) :
    out.cmds = cmds1 ++ [Command.add effect uuid origin overlay desc] := by
  cases hH : handlerAddEffect fuel env w effect uuid origin overlay desc with
  | error e =>
    rw [executeAddAsGM, hH, except_bind_error] at h
    exact Except.noConfusion h
  | ok p =>
    obtain ⟨w2, n2⟩ := p
    rw [executeAddAsGM, hH, except_bind_ok] at h
    injection h with h
    subst h
    rfl

/-- What a successful relayed privileged removal returns. -/
theorem executeRemoveAsGM_spec {w : World} {eid : Option String}
    {uuid : String} {p : World × List Command}
    (h : executeRemoveAsGM w eid uuid = Except.ok p) :
    p.2 = [Command.remove eid uuid none] ∧
    removeEffectHandler w eid uuid none = Except.ok p.1 := by
  cases hR : removeEffectHandler w eid uuid none with
  | error e =>
    rw [executeRemoveAsGM, hR, except_bind_error] at h
    exact Except.noConfusion h
  | ok wx =>
    rw [executeRemoveAsGM, hR, except_bind_ok, except_pure_eq] at h
    injection h with h
    subst h
    exact ⟨rfl, rfl⟩

/-- The exhaustion path of the issuer-side `addEffect` only relays add
commands whose payload carries the is-convenient marker. -/
theorem exhaustionAdd_cmds_marked {fuel : Nat} {env : Env} {w : World}
    {args : AddEffectArgs} {desc : StatusDescriptor} {target : Option String}
    {actor : Actor} {out : IfaceOut}
    (h : exhaustionAdd fuel env w args desc target actor = Except.ok out) :
    addCmdsMarked out.cmds = true := by
  rw [exhaustionAdd] at h
  split at h
  · -- zero level: a single removal command
    cases hE : executeRemoveAsGM w
        ((actor.appliedEffects.find? (fun e => e.docId == some desc.staticID)).bind
          (fun e => e.docId)) args.uuid with
    | error e => rw [hE, except_bind_error] at h; exact Except.noConfusion h
    | ok p =>
      obtain ⟨w1, cmds⟩ := p
      rw [hE, except_bind_ok] at h
      injection h with h
      subst h
      have hc := (executeRemoveAsGM_spec hE).1
      simp only at hc
      simp [addCmdsMarked, hc]
  · -- nonzero level
    cases hF : fromStatusEffect env desc.id with
    | none =>
      simp only [hF] at h
      split at h
      · rename_i ex hex
        cases hE : executeRemoveAsGM w ex.docId args.uuid with
        | error e => rw [hE, except_bind_error] at h; exact Except.noConfusion h
        | ok p =>
          obtain ⟨w1, cmds1⟩ := p
          rw [hE, except_bind_ok] at h
          exact Except.noConfusion h
      · rw [except_pure_eq, except_bind_ok] at h
        exact Except.noConfusion h
    | some fe =>
      simp only [hF] at h
      split at h
      · rename_i ex hex
        cases hE : executeRemoveAsGM w ex.docId args.uuid with
        | error e => rw [hE, except_bind_error] at h; exact Except.noConfusion h
        | ok p =>
          obtain ⟨w1, cmds1⟩ := p
          rw [hE, except_bind_ok] at h
          have hcmds := executeAddAsGM_cmds h
          have hc := (executeRemoveAsGM_spec hE).1
          simp only at hc hcmds
          rw [hcmds, hc]
          simp [addCmdsMarked, isConvenient, EffectObj.convenientFlag,
            EffectObj.shape]
      · rw [except_pure_eq, except_bind_ok] at h
        have hcmds := executeAddAsGM_cmds h
        rw [hcmds]
        simp [addCmdsMarked, isConvenient, EffectObj.convenientFlag,
          EffectObj.shape]

/-- Claim C2 amended: instances created through the issuer-side paths carry
the is-convenient marker — every add command the issuer-side `addEffect`
relays for a status-classified name has a marked payload, and the instance
the issuer-side `addEffectWith` status path creates on the privileged side
is marked — but the instance the privileged `toggleEffect` status branch
creates comes straight from the platform factory and carries no marker. -/
theorem C2_marker_flag_amended :
    (∀ (fuel : Nat) (env : Env) (w : World) (args : AddEffectArgs)
      (desc : StatusDescriptor) (out : IfaceOut),
      isStatusEffect env args.effectName = some desc →
      addEffectIface fuel env w args = Except.ok out →
      addCmdsMarked out.cmds = true)
    ∧ (∀ (fuel : Nat) (env : Env) (w : World) (effectData : EffectObj)
        (uuid : String) (origin : Option String) (overlay : Option Bool)
        (desc : StatusDescriptor) (fe : EffectObj) (actor : Actor)
        (w2 : World) (n2 : List String),
        effectData.name.isEmpty = false →
        isStatusEffect env effectData.name = some desc →
        fromStatusEffect env desc.id = some fe →
        getActorByUuid w uuid = some actor →
        addEffectWithIface (fuel+1) env w effectData uuid origin overlay
          = Except.ok (w2, n2) →
        ∃ a2, getActorByUuid w2 uuid = some a2 ∧
          a2.effects.getLast? =
            some (keptDoc (updateSourceData fe (setConvenient effectData true))) ∧
          isConvenient
            (keptDoc (updateSourceData fe (setConvenient effectData true))) = true)
    ∧ (∀ (env : Env) (w : World) (uuid statusId : String)
        (overlay : Option Bool) (fe : EffectObj) (w1 : World),
        fromStatusEffect env statusId = some fe →
        toggleStatusCreate env w uuid statusId overlay none = Except.ok w1 →
        ∃ fe1, w1 = updateActor w uuid (fun a =>
            { a with effects := a.effects ++ [keptDoc fe1] }) ∧
          isConvenient (keptDoc fe1) = false ∧
          (keptDoc fe1).applied = true) := by
  refine ⟨?_, ?_, ?_⟩
  · intro fuel env w args desc out hdesc h
    cases ha : getActorByUuid w args.uuid with
    | none =>
      rw [addEffectIface] at h
      simp only [ha] at h
      exact Except.noConfusion h
    | some actor =>
      rw [addEffectIface] at h
      simp only [ha, hdesc] at h
      cases hexh : desc.isExhaustion with
      | noSuffix => rw [hexh] at h; exact exhaustionAdd_cmds_marked h
      | num s => rw [hexh] at h; exact exhaustionAdd_cmds_marked h
      | notExh =>
        rw [hexh] at h
        cases hF : fromStatusEffect env desc.id with
        | none =>
          simp only [hF] at h
          split at h
          · rename_i ex hex
            cases hE : executeRemoveAsGM w ex.docId args.uuid with
            | error e =>
              rw [hE, except_bind_error] at h
              exact Except.noConfusion h
            | ok p =>
              obtain ⟨w1, cmds1⟩ := p
              rw [hE, except_bind_ok] at h
              exact Except.noConfusion h
          · rw [except_pure_eq, except_bind_ok] at h
            exact Except.noConfusion h
        | some fe =>
          simp only [hF] at h
          split at h
          · rename_i ex hex
            cases hE : executeRemoveAsGM w ex.docId args.uuid with
            | error e =>
              rw [hE, except_bind_error] at h
              exact Except.noConfusion h
            | ok p =>
              obtain ⟨w1, cmds1⟩ := p
              rw [hE, except_bind_ok] at h
              have hcmds := executeAddAsGM_cmds h
              have hc := (executeRemoveAsGM_spec hE).1
              simp only at hc hcmds
              rw [hcmds, hc]
              split <;>
                simp [addCmdsMarked, isConvenient, EffectObj.convenientFlag,
                  EffectObj.shape, withChanges, setConvenient]
          · rw [except_pure_eq, except_bind_ok] at h
            have hcmds := executeAddAsGM_cmds h
            rw [hcmds]
            split <;>
              simp [addCmdsMarked, isConvenient, EffectObj.convenientFlag,
                EffectObj.shape, withChanges, setConvenient]
  · intro fuel env w effectData uuid origin overlay desc fe actor w2 n2
      hname hdesc hfe ha h
    simp only [addEffectWithIface, hname, Bool.false_eq_true, if_false,
      hdesc, hfe, ha] at h
    cases fuel with
    | zero => exact Except.noConfusion h
    | succ m =>
      simp only [handlerAddEffect, ha, EffectObj.docId, updateSourceData,
        setConvenient, shape_mk] at h
      cases hD : fe.shape._id with
      | none =>
        simp only [hD] at h
        cases hHud : hudCheck actor with
        | error e =>
          rw [except_pure_eq, except_bind_ok, hHud, except_bind_error] at h
          exact Except.noConfusion h
        | ok b =>
          rw [except_pure_eq, except_bind_ok, hHud, except_bind_ok,
            except_pure_eq] at h
          injection h with h
          injection h with h1 h2
          refine ⟨{ actor with effects := actor.effects ++
              [keptDoc (updateSourceData fe (setConvenient effectData true))] },
            ?_, ?_, rfl⟩
          · rw [← h1, getActorByUuid_updateActor, ha]
            simp [keptDoc, updateSourceData, setConvenient, shape_mk, hD]
          · exact List.getLast?_concat _
      | some t =>
        simp only [hD] at h
        cases hFind : actor.appliedEffects.find?
            (fun e => e.shape._id == some t) with
        | none =>
          simp only [hFind] at h
          cases hHud : hudCheck actor with
          | error e =>
            rw [except_pure_eq, except_bind_ok, hHud, except_bind_error] at h
            exact Except.noConfusion h
          | ok b =>
            rw [except_pure_eq, except_bind_ok, hHud, except_bind_ok,
              except_pure_eq] at h
            injection h with h
            injection h with h1 h2
            refine ⟨{ actor with effects := actor.effects ++
                [keptDoc (updateSourceData fe (setConvenient effectData true))] },
              ?_, ?_, rfl⟩
            · rw [← h1, getActorByUuid_updateActor, ha]
              simp [keptDoc, updateSourceData, setConvenient, shape_mk, hD]
            · exact List.getLast?_concat _
        | some ex =>
          simp only [hFind] at h
          cases hR : removeEffectHandler w ex.shape._id uuid none with
          | error e =>
            rw [hR, except_bind_error] at h
            exact Except.noConfusion h
          | ok w1x =>
            rw [hR, except_bind_ok] at h
            obtain ⟨a1, ha1⟩ := removeEffectHandler_actor ha hR
            cases hHud : hudCheck actor with
            | error e =>
              rw [hHud, except_bind_error] at h
              exact Except.noConfusion h
            | ok b =>
              rw [hHud, except_bind_ok, except_pure_eq] at h
              injection h with h
              injection h with h1 h2
              refine ⟨{ a1 with effects := a1.effects ++
                  [keptDoc (updateSourceData fe (setConvenient effectData true))] },
                ?_, ?_, rfl⟩
              · rw [← h1, getActorByUuid_updateActor, ha1]
                simp [keptDoc, updateSourceData, setConvenient, shape_mk, hD]
              · exact List.getLast?_concat _
  · intro env w uuid statusId overlay fe w1 hfe h
    rw [toggleStatusCreate] at h
    simp only [hfe,
      show ((none : Option Bool) == some false) = false from rfl,
      Bool.false_eq_true, if_false] at h
    injection h with h
    refine ⟨(if overlay == some true then withCoreOverlay fe (some true)
      else fe), h.symm, ?_, rfl⟩
    obtain ⟨entry, hentry, hfeEq⟩ := Option.map_eq_some'.mp hfe
    subst hfeEq
    split <;> rfl

/-- Claim C2 amended witness: the three parts applied at concrete inputs —
the relayed status add for "Blinded" carries a marked payload, the
`addEffectWith` status path creates a marked instance, and the privileged
toggle's status creation produces an unmarked applied instance. -/
theorem C2_marker_flag_amended_witness :
    (∃ out, addEffectIface 10 sampleEnv exhaustActorW
        { effectName := "Blinded", uuid := "u" } = Except.ok out ∧
      addCmdsMarked out.cmds = true) ∧
    (∃ w2 n2 a2, addEffectWithIface 10 sampleEnv exhaustActorW blindedData
        "u" none none = Except.ok (w2, n2) ∧
      getActorByUuid w2 "u" = some a2 ∧
      a2.effects.getLast? = some (keptDoc (updateSourceData blindedFactory
        (setConvenient blindedData true))) ∧
      isConvenient (keptDoc (updateSourceData blindedFactory
        (setConvenient blindedData true))) = true) ∧
    (∃ w1 fe1, toggleStatusCreate sampleEnv toggleW "u" "blinded" none none
        = Except.ok w1 ∧
      w1 = updateActor toggleW "u" (fun a =>
        { a with effects := a.effects ++ [keptDoc fe1] }) ∧
      isConvenient (keptDoc fe1) = false ∧
      (keptDoc fe1).applied = true) := by
  refine ⟨⟨_, rfl, ?_⟩, ?_, ?_⟩
  · exact C2_marker_flag_amended.1 10 sampleEnv exhaustActorW
      { effectName := "Blinded", uuid := "u" } blindedDesc _ rfl rfl
  · have h := C2_marker_flag_amended.2.1 9 sampleEnv exhaustActorW
      blindedData "u" none none blindedDesc blindedFactory
      { name := "Hero", exhaustion := some 3, activeTokens := [{}] } _ _
      (by decide) rfl rfl rfl rfl
    obtain ⟨a2, h1, h2, h3⟩ := h
    exact ⟨_, _, a2, rfl, h1, h2, h3⟩
  · have h := C2_marker_flag_amended.2.2 sampleEnv toggleW "u" "blinded"
      none blindedFactory _ rfl rfl
    obtain ⟨fe1, h1, h2, h3⟩ := h
    exact ⟨_, fe1, rfl, h1, h2, h3⟩

/-- Claim C7 counterexample: a pre-existing applied instance that bears the
fixed identity token but lacks the convenient marker is not removed by the
privileged status add — the dedupe removal is convenient-scoped — and after
the add completes the actor carries two instances with that token. -/
theorem C7_duplicate_token :
    handlerAddEffect 10 sampleEnv dupW blindedPayload "u" none none
        (some blindedDesc) = Except.ok (dupResultW, []) ∧
    (getActorByUuid dupResultW "u").map (fun a =>
      a.effects.countP (fun e => e.docId == some "dnd5eblinded0000"))
      = some 2 :=
  ⟨rfl, rfl⟩

/-- Claim C7 amended: the privileged status add preserves the
at-most-one-instance-per-token invariant provided every pre-existing
instance bearing the token is applied and convenient-marked and no effect
on the actor is named by the token string — under those conditions the
actor ends with exactly one instance bearing the token.  (Without the
convenient marker on the pre-existing instance, the removal skips it and a
duplicate results, as the counterexample shows.) -/
theorem C7_token_unique_amended (fuel : Nat) (env : Env) (w : World)
    (uuid t : String) (effect : EffectObj) (desc : StatusDescriptor)
    (actor : Actor) (origin : Option String) (overlay : Option Bool)
    (ha : getActorByUuid w uuid = some actor)
    (hid : effect.docId = some t)
    (hhud : ∃ b, hudCheck actor = Except.ok b)
    (hconv : ∀ e ∈ actor.effects, e.docId = some t →
      e.applied = true ∧ isConvenient e = true)
    (hcount : actor.effects.countP (fun e => e.docId == some t) ≤ 1)
    (hname : ∀ e ∈ actor.effects, e.name ≠ t) :
    ∃ w2, handlerAddEffect (fuel+1) env w effect uuid origin overlay
        (some desc) = Except.ok (w2, []) ∧
      ∃ a2, getActorByUuid w2 uuid = some a2 ∧
        a2.effects.countP (fun e => e.docId == some t) = 1 := by
  obtain ⟨b, hb⟩ := hhud
  simp only [handlerAddEffect, ha, hid]
  cases hFind : actor.appliedEffects.find? (fun e => e.docId == some t) with
  | none =>
    have hzero : actor.effects.countP (fun e => e.docId == some t) = 0 := by
      rw [List.countP_eq_zero]
      intro e he
      intro hbeq
      have heq : e.docId = some t := by simpa using hbeq
      obtain ⟨happ, _⟩ := hconv e he heq
      have hmem : e ∈ actor.appliedEffects := by
        simp [Actor.appliedEffects, List.mem_filter, he, happ]
      have := List.find?_eq_none.mp hFind e hmem
      simp [heq] at this
    refine ⟨updateActor w uuid (fun a =>
      { a with effects := a.effects ++ [keptDoc effect] }), ?_, ?_⟩
    · simp only [except_pure_eq, except_bind_ok, hb]
    · rw [getActorByUuid_updateActor, ha]
      refine ⟨_, rfl, ?_⟩
      have hid' : effect.shape._id = some t := hid
      rw [List.countP_append, hzero]
      simp [keptDoc, EffectObj.docId, shape_mk, hid']
  | some ex =>
    have hqx := List.find?_some hFind
    have hexmemA : ex ∈ actor.appliedEffects := List.mem_of_find?_eq_some hFind
    have hexmem : ex ∈ actor.effects :=
      (List.mem_filter.mp hexmemA).1
    have hexid : ex.docId = some t := by simpa using hqx
    obtain ⟨hexapp, hexconv⟩ := hconv ex hexmem hexid
    have hagree : ∀ e ∈ actor.effects,
        (e.applied && (isConvenient e && matchesId e ex.docId))
          = (e.docId == some t) := by
      intro e he
      rw [hexid]
      by_cases hdoc : e.docId = some t
      · obtain ⟨happ, hcv⟩ := hconv e he hdoc
        simp [matchesId, happ, hcv, hdoc]
      · have hnm : (e.name == t) = false := by
          simpa using hname e he
        have hdq : (e.docId == some t) = false := by
          simpa using hdoc
        simp [matchesId, hdq, hnm]
    have hRem : removeEffectHandler w ex.docId uuid none =
        Except.ok (updateActor w uuid (fun a =>
          { a with effects := a.effects.eraseP (fun e => e.applied &&
              (isConvenient e && matchesId e ex.docId)) })) := by
      simp only [removeEffectHandler, ha, Bool.false_eq_true, if_false]
      cases hF2 : actor.appliedEffects.find?
          (fun e => isConvenient e && matchesId e ex.docId) with
      | none =>
        exfalso
        have := List.find?_eq_none.mp hF2 ex hexmemA
        rw [hexid] at this
        simp [matchesId, hexconv, hexid] at this
      | some ey => simp only [hF2]
    simp only [hRem]
    refine ⟨updateActor (updateActor w uuid (fun a =>
        { a with effects := a.effects.eraseP (fun e => e.applied &&
            (isConvenient e && matchesId e ex.docId)) })) uuid (fun a =>
      { a with effects := a.effects ++ [keptDoc effect] }), ?_, ?_⟩
    · simp only [except_bind_ok, hb]
      rfl
    · rw [getActorByUuid_updateActor, getActorByUuid_updateActor, ha]
      refine ⟨_, rfl, ?_⟩
      rw [List.countP_append]
      have herase : (actor.effects.eraseP (fun e => e.applied &&
          (isConvenient e && matchesId e ex.docId))).countP
            (fun e => e.docId == some t) = 0 := by
        rw [eraseP_congr actor.effects _ (fun e => e.docId == some t) hagree]
        exact countP_eraseP_self _ _ hcount
      have hid' : effect.shape._id = some t := hid
      rw [herase]
      simp [keptDoc, EffectObj.docId, shape_mk, hid']

/-- Claim C7 amended witness: replacing a convenient-marked token instance
leaves exactly one instance bearing the token. -/
theorem C7_token_unique_amended_witness :
    getActorByUuid dupMarkedW "u" = some
      { name := "Hero", effects := [blindedMarked], activeTokens := [{}] } ∧
    blindedPayload.docId = some "dnd5eblinded0000" ∧
    (∃ w2, handlerAddEffect 10 sampleEnv dupMarkedW blindedPayload "u" none
        none (some blindedDesc) = Except.ok (w2, []) ∧
      ∃ a2, getActorByUuid w2 "u" = some a2 ∧
        a2.effects.countP (fun e => e.docId == some "dnd5eblinded0000") = 1) :=
  ⟨rfl, rfl,
   C7_token_unique_amended 9 sampleEnv dupMarkedW "u" "dnd5eblinded0000"
     blindedPayload blindedDesc
     { name := "Hero", effects := [blindedMarked], activeTokens := [{}] }
     none none rfl rfl ⟨false, rfl⟩ (by decide) (by decide) (by decide)⟩

theorem C8_step1 (fuel : Nat) (env : Env) (w : World) (uuid : String)
    (p s1 s2 : EffectObj) (actor : Actor)
    (origin : Option String) (overlay : Option Bool)
    (ha : getActorByUuid w uuid = some actor)
    (hsub : p.subEffects = [s1, s2])
    (hpdyn : p.isDynamic = false) :
    handlerAddEffect (fuel+6) env w p uuid origin overlay none
      = processSubEffects (fuel+5) env (updateActor w uuid (fun a =>
          { a with effects := a.effects ++ [freshDoc (withCoreOverlay p overlay)] }))
          [s1, s2] uuid (env.getId p.name) := by
  have hsub' : p.shape.subEffects = [s1, s2] := hsub
  have hpdyn' : p.shape.isDynamic = false := hpdyn
  simp only [handlerAddEffect, ha, EffectObj.isDynamic, EffectObj.subEffects,
    EffectObj.name, withCoreOverlay, freshDoc, shape_mk, hpdyn', hsub',
    Bool.false_eq_true, if_false]

theorem C8_leaf_add (fuel : Nat) (env : Env) (w1 : World) (uuid : String)
    (s : EffectObj) (actor1 : Actor) (gid : String)
    (ha1 : getActorByUuid w1 uuid = some actor1)
    (hcls : isStatusEffect env s.name = none)
    (hnest : s.nestedNames = [])
    (hdyn : s.isDynamic = false)
    (hsub : s.subEffects = []) :
    addEffectWithIface (fuel+3) env w1 s uuid (some gid) none
      = Except.ok (updateActor w1 uuid (fun a =>
          { a with effects := a.effects ++
              [freshDoc (withCoreOverlay (createActiveEffect s (some gid)) none)] }),
          []) := by
  have hcls' : isStatusEffect env s.shape.name = none := hcls
  have hnest' : s.shape.nestedNames = [] := hnest
  have hdyn' : s.shape.isDynamic = false := hdyn
  have hsub' : s.shape.subEffects = [] := hsub
  have hif : (if s.shape.name.isEmpty = true then (none : Option StatusDescriptor)
      else isStatusEffect env s.shape.name) = none := by
    cases h : s.shape.name.isEmpty <;> simp [hcls']
  simp only [addEffectWithIface, EffectObj.name, hif, createActiveEffect,
    hasNestedEffects, EffectObj.nestedNames, shape_mk, hnest',
    List.isEmpty_nil, Bool.not_true, Bool.false_eq_true, if_false, ha1,
    handlerAddEffect, EffectObj.isDynamic, hdyn', EffectObj.subEffects,
    hsub', withCoreOverlay, freshDoc, processSubEffects]

/-- Claim C8: adding a composite definition with two (leaf, non-status,
catalog-style) sub-effects to an actor with no effects yields exactly three
applied instances — the parent and the two sub-effects — the two sub-effect
instances carry the parent's derived identifier as their origin, and each
of the three is independently removable by name. -/
theorem C8_composite_three_instances (fuel : Nat) (env : Env) (w : World)
    (uuid : String) (p s1 s2 : EffectObj) (actor : Actor)
    (origin : Option String) (overlay : Option Bool)
    (ha : getActorByUuid w uuid = some actor)
    (hempty : actor.effects = [])
    (hsub : p.subEffects = [s1, s2])
    (hpdyn : p.isDynamic = false)
    (hpconv : p.convenientFlag = true)
    (hs1cls : isStatusEffect env s1.name = none)
    (hs2cls : isStatusEffect env s2.name = none)
    (hs1nest : s1.nestedNames = []) (hs2nest : s2.nestedNames = [])
    (hs1dyn : s1.isDynamic = false) (hs2dyn : s2.isDynamic = false)
    (hs1sub : s1.subEffects = []) (hs2sub : s2.subEffects = [])
    (hn1 : p.name ≠ s1.name) (hn2 : p.name ≠ s2.name)
    (hn3 : s1.name ≠ s2.name) :
    ∃ wf af,
      handlerAddEffect (fuel+6) env w p uuid origin overlay none
        = Except.ok (wf, []) ∧
      getActorByUuid wf uuid = some af ∧
      af.effects.length = 3 ∧
      af.effects.map (fun e => e.name) = [p.name, s1.name, s2.name] ∧
      af.effects.map (fun e => e.origin)
        = [p.origin, some (env.getId p.name), some (env.getId p.name)] ∧
      (∀ e ∈ af.effects, e.applied = true) ∧
      (∃ wr ar, removeEffectHandler wf (some p.name) uuid none
          = Except.ok wr ∧ getActorByUuid wr uuid = some ar ∧
        ar.effects.map (fun e => e.name) = [s1.name, s2.name]) ∧
      (∃ wr ar, removeEffectHandler wf (some s1.name) uuid none
          = Except.ok wr ∧ getActorByUuid wr uuid = some ar ∧
        ar.effects.map (fun e => e.name) = [p.name, s2.name]) ∧
      (∃ wr ar, removeEffectHandler wf (some s2.name) uuid none
          = Except.ok wr ∧ getActorByUuid wr uuid = some ar ∧
        ar.effects.map (fun e => e.name) = [p.name, s1.name]) := by
  have hpconv' : p.shape.convenientFlag = true := hpconv
  -- the three created documents
  set E0 := freshDoc (withCoreOverlay p overlay) with hE0
  set E1 := freshDoc (withCoreOverlay
    (createActiveEffect s1 (some (env.getId p.name))) none) with hE1
  set E2 := freshDoc (withCoreOverlay
    (createActiveEffect s2 (some (env.getId p.name))) none) with hE2
  -- the worlds after each creation
  set W1 := updateActor w uuid (fun a =>
    { a with effects := a.effects ++ [E0] }) with hW1
  set W2 := updateActor W1 uuid (fun a =>
    { a with effects := a.effects ++ [E1] }) with hW2
  set W3 := updateActor W2 uuid (fun a =>
    { a with effects := a.effects ++ [E2] }) with hW3
  have ha1 : getActorByUuid W1 uuid =
      some { actor with effects := [E0] } := by
    rw [hW1, getActorByUuid_updateActor, ha]
    simp [hempty]
  have ha2 : getActorByUuid W2 uuid =
      some { actor with effects := [E0, E1] } := by
    rw [hW2, getActorByUuid_updateActor, ha1]
    simp
  have ha3 : getActorByUuid W3 uuid =
      some { actor with effects := [E0, E1, E2] } := by
    rw [hW3, getActorByUuid_updateActor, ha2]
    simp
  have h2 := C8_leaf_add (fuel+1) env W1 uuid s1
    { actor with effects := [E0] } (env.getId p.name) ha1 hs1cls hs1nest
    hs1dyn hs1sub
  have h2' : addEffectWithIface (fuel+4) env W1 s1 uuid
      (some (env.getId p.name)) none = Except.ok (W2, []) := h2
  have h3 := C8_leaf_add fuel env W2 uuid s2
    { actor with effects := [E0, E1] } (env.getId p.name) ha2 hs2cls hs2nest
    hs2dyn hs2sub
  have h3' : addEffectWithIface (fuel+3) env W2 s2 uuid
      (some (env.getId p.name)) none = Except.ok (W3, []) := h3
  have hrun : handlerAddEffect (fuel+6) env w p uuid origin overlay none
      = Except.ok (W3, []) := by
    rw [C8_step1 fuel env w uuid p s1 s2 actor origin overlay ha hsub hpdyn]
    rw [← hW1]
    simp only [processSubEffects]
    rw [h2', except_bind_ok]
    simp only [processSubEffects]
    rw [h3', except_bind_ok]
    simp only [processSubEffects]
    rfl
  refine ⟨W3, { actor with effects := [E0, E1, E2] }, hrun, ha3, ?_, ?_, ?_,
    ?_, ?_, ?_, ?_⟩
  · rfl
  · simp [hE0, hE1, hE2, freshDoc, withCoreOverlay, createActiveEffect,
      EffectObj.name, shape_mk]
  · simp [hE0, hE1, hE2, freshDoc, withCoreOverlay, createActiveEffect,
      EffectObj.origin, shape_mk]
  · intro e he
    simp only [List.mem_cons, List.not_mem_nil, or_false] at he
    rcases he with rfl | rfl | rfl <;>
      simp [hE0, hE1, hE2, freshDoc, withCoreOverlay, createActiveEffect,
        EffectObj.applied, shape_mk]
  · -- remove the parent by name
    have hfind : ({ actor with effects := [E0, E1, E2] } : Actor).appliedEffects.find?
        (fun e => isConvenient e && matchesId e (some p.name)) = some E0 := by
      simp [Actor.appliedEffects, matchesId, isConvenient,
        EffectObj.convenientFlag, EffectObj.name, EffectObj.docId,
        EffectObj.applied, hE0, hE1, hE2, freshDoc, withCoreOverlay,
        createActiveEffect, shape_mk, hpconv', List.find?_cons]
    refine ⟨updateActor W3 uuid (fun a =>
      { a with effects := a.effects.eraseP (fun e => e.applied &&
          (isConvenient e && matchesId e (some p.name))) }),
      { actor with effects := [E1, E2] }, ?_, ?_, ?_⟩
    · simp only [removeEffectHandler, ha3, Bool.false_eq_true, if_false]
      rw [hfind]
    · rw [getActorByUuid_updateActor, ha3]
      simp [List.eraseP_cons, matchesId, isConvenient,
        EffectObj.convenientFlag, EffectObj.name, EffectObj.docId,
        EffectObj.applied, hE0, hE1, hE2, freshDoc, withCoreOverlay,
        createActiveEffect, shape_mk, hpconv']
    · simp [hE1, hE2, freshDoc, withCoreOverlay, createActiveEffect,
        EffectObj.name, shape_mk]
  · -- remove the first sub-effect by name
    have hb_ps1 : (p.shape.name == s1.shape.name) = false :=
      beq_eq_false_iff_ne.mpr hn1
    have hfind : ({ actor with effects := [E0, E1, E2] } : Actor).appliedEffects.find?
        (fun e => isConvenient e && matchesId e (some s1.name)) = some E1 := by
      simp [Actor.appliedEffects, matchesId, isConvenient,
        EffectObj.convenientFlag, EffectObj.name, EffectObj.docId,
        EffectObj.applied, hE0, hE1, hE2, freshDoc, withCoreOverlay,
        createActiveEffect, shape_mk, hpconv', hb_ps1, List.find?_cons]
    refine ⟨updateActor W3 uuid (fun a =>
      { a with effects := a.effects.eraseP (fun e => e.applied &&
          (isConvenient e && matchesId e (some s1.name))) }),
      { actor with effects := [E0, E2] }, ?_, ?_, ?_⟩
    · simp only [removeEffectHandler, ha3, Bool.false_eq_true, if_false]
      rw [hfind]
    · rw [getActorByUuid_updateActor, ha3]
      simp [List.eraseP_cons, matchesId, isConvenient,
        EffectObj.convenientFlag, EffectObj.name, EffectObj.docId,
        EffectObj.applied, hE0, hE1, hE2, freshDoc, withCoreOverlay,
        createActiveEffect, shape_mk, hpconv', hb_ps1]
    · simp [hE0, hE2, freshDoc, withCoreOverlay, createActiveEffect,
        EffectObj.name, shape_mk]
  · -- remove the second sub-effect by name
    have hb_ps2 : (p.shape.name == s2.shape.name) = false :=
      beq_eq_false_iff_ne.mpr hn2
    have hb_s1s2 : (s1.shape.name == s2.shape.name) = false :=
      beq_eq_false_iff_ne.mpr hn3
    have hfind : ({ actor with effects := [E0, E1, E2] } : Actor).appliedEffects.find?
        (fun e => isConvenient e && matchesId e (some s2.name)) = some E2 := by
      simp [Actor.appliedEffects, matchesId, isConvenient,
        EffectObj.convenientFlag, EffectObj.name, EffectObj.docId,
        EffectObj.applied, hE0, hE1, hE2, freshDoc, withCoreOverlay,
        createActiveEffect, shape_mk, hpconv', hb_ps2, hb_s1s2, List.find?_cons]
    refine ⟨updateActor W3 uuid (fun a =>
      { a with effects := a.effects.eraseP (fun e => e.applied &&
          (isConvenient e && matchesId e (some s2.name))) }),
      { actor with effects := [E0, E1] }, ?_, ?_, ?_⟩
    · simp only [removeEffectHandler, ha3, Bool.false_eq_true, if_false]
      rw [hfind]
    · rw [getActorByUuid_updateActor, ha3]
      simp [List.eraseP_cons, matchesId, isConvenient,
        EffectObj.convenientFlag, EffectObj.name, EffectObj.docId,
        EffectObj.applied, hE0, hE1, hE2, freshDoc, withCoreOverlay,
        createActiveEffect, shape_mk, hpconv', hb_ps2, hb_s1s2]
    · simp [hE0, hE1, freshDoc, withCoreOverlay, createActiveEffect,
        EffectObj.name, shape_mk]

/-- Claim C8 witness: the theorem applied to the concrete composite "Aid"
with sub-effects "AidHP" and "AidSave" on an actor with no effects. -/
theorem C8_composite_three_instances_witness :
    ∃ wf af,
      handlerAddEffect (4+6) sampleEnv toggleW compParent "u" none none none
        = Except.ok (wf, []) ∧
      getActorByUuid wf "u" = some af ∧
      af.effects.length = 3 ∧
      af.effects.map (fun e => e.name)
        = [compParent.name, compSubA.name, compSubB.name] ∧
      af.effects.map (fun e => e.origin)
        = [compParent.origin, some (sampleEnv.getId compParent.name),
           some (sampleEnv.getId compParent.name)] ∧
      (∀ e ∈ af.effects, e.applied = true) ∧
      (∃ wr ar, removeEffectHandler wf (some compParent.name) "u" none
          = Except.ok wr ∧ getActorByUuid wr "u" = some ar ∧
        ar.effects.map (fun e => e.name) = [compSubA.name, compSubB.name]) ∧
      (∃ wr ar, removeEffectHandler wf (some compSubA.name) "u" none
          = Except.ok wr ∧ getActorByUuid wr "u" = some ar ∧
        ar.effects.map (fun e => e.name) = [compParent.name, compSubB.name]) ∧
      (∃ wr ar, removeEffectHandler wf (some compSubB.name) "u" none
          = Except.ok wr ∧ getActorByUuid wr "u" = some ar ∧
        ar.effects.map (fun e => e.name) = [compParent.name, compSubA.name]) :=
  C8_composite_three_instances 4 sampleEnv toggleW "u" compParent compSubA
    compSubB { name := "Hero" } none none rfl rfl rfl rfl rfl rfl rfl rfl rfl
    rfl rfl rfl rfl (by decide) (by decide) (by decide)

end DFreds
